import Mathlib

/-!
# Verification of DataTables-Live-Ajax (src/dataTables.liveAjax.js)

A shallow embedding of the liveAjax plugin core: the keyed-restructuring
routine `_fnKeyStructData`, the diff routine `_fnGetChanges`, the
json-processing routine `_processNewJson`, and the polling/scheduling
state machine (`initReload`, `_initUpdates`, the API methods
`liveAjax.reload()` and `liveAjax.setInterval()`), together with proofs
about the claims of the specification.

JavaScript values are modelled by `JVal` (JSON values plus `undef` for
the JavaScript `undefined`); JS numbers appearing in the plugin's data
paths are integers and are modelled as `Int`.  Property access that
throws in JavaScript (reading a property of `null`/`undefined`) is
modelled in `Except String`.
-/

set_option maxHeartbeats 1000000

namespace LiveAjax

/-- JavaScript values flowing through the plugin: the JSON values plus
`undef`, which models the JavaScript `undefined`. Object fields are an
insertion-ordered association list, exactly as a JS object literal
parsed from JSON. -/
inductive JVal where
  | null : JVal
  | undef : JVal
  | bool : Bool → JVal
  | num : Int → JVal
  | str : String → JVal
  | arr : List JVal → JVal
  | obj : List (String × JVal) → JVal

namespace JVal

/-- First binding of a key in a JS object's field list (JS objects have
unique keys; the index builder below keeps them unique). -/
def findField (k : String) : List (String × JVal) → Option JVal
  | [] => none
  | (k2, v) :: fs => if k2 = k then some v else findField k fs

/-- Decimal digit value of a character. -/
def charDigit? (c : Char) : Option Nat :=
  if c = '0' then some 0 else if c = '1' then some 1
  else if c = '2' then some 2 else if c = '3' then some 3
  else if c = '4' then some 4 else if c = '5' then some 5
  else if c = '6' then some 6 else if c = '7' then some 7
  else if c = '8' then some 8 else if c = '9' then some 9 else none

/-- Accumulate a decimal number over a character list. -/
def digitsToNat : List Char → Nat → Option Nat
  | [], acc => some acc
  | c :: cs, acc =>
      match charDigit? c with
      | some d => digitsToNat cs (acc * 10 + d)
      | none => none

/-- A canonical array-index string, as JavaScript treats `a["0"]` but not
`a["01"]` as an array index access. -/
def strIndex? (k : String) : Option Nat :=
  match k.toList with
  | [] => none
  | cs =>
      match digitsToNat cs 0 with
      | some i => if toString i = k then some i else none
      | none => none

/-- JavaScript property read `v[k]`: throws a TypeError on `null` and
`undefined`, returns `undef` for a missing property, and supports the
`length` property and index access of strings and arrays. -/
def getField : JVal → String → Except String JVal
  | .null, _ => .error "TypeError: cannot read properties of null"
  | .undef, _ => .error "TypeError: cannot read properties of undefined"
  | .bool _, _ => .ok .undef
  | .num _, _ => .ok .undef
  | .str s, k =>
      if k = "length" then .ok (.num s.length)
      else
        match strIndex? k with
        | some i =>
            match s.toList.get? i with
            | some c => .ok (.str (String.singleton c))
            | none => .ok .undef
        | none => .ok .undef
  | .arr xs, k =>
      if k = "length" then .ok (.num xs.length)
      else
        match strIndex? k with
        | some i =>
            match xs.get? i with
            | some v => .ok v
            | none => .ok .undef
        | none => .ok .undef
  | .obj fs, k => .ok ((findField k fs).getD .undef)

/-- `$.isArray` -/
def isArr : JVal → Bool
  | .arr _ => true
  | _ => false

/-- `$.isPlainObject` -/
def isObj : JVal → Bool
  | .obj _ => true
  | _ => false

/-- `typeof v === 'undefined'` -/
def isUndef : JVal → Bool
  | .undef => true
  | _ => false

/-- JS strict equality `v === 0`. -/
def strictEqZero : JVal → Bool
  | .num n => n == 0
  | _ => false

/-- JSON string escaping of `"` and `\`, enough to make the rendering
injective on the values handled here. -/
def escapeStr (s : String) : String :=
  s.toList.foldl
    (fun acc c =>
      if c = '"' then acc ++ "\\\""
      else if c = '\\' then acc ++ "\\\\"
      else acc.push c) ""

mutual

/-- `JSON.stringify`: `none` models the JavaScript `undefined` result (for
an `undefined` input). `undefined` elements of arrays render as `null`;
object fields whose value is `undefined` are omitted. -/
def stringify : JVal → Option String
  | .undef => none
  | .null => some "null"
  | .bool b => some (cond b "true" "false")
  | .num n => some (toString n)
  | .str s => some ("\"" ++ escapeStr s ++ "\"")
  | .arr xs => some ("[" ++ String.intercalate "," (stringifyElems xs) ++ "]")
  | .obj fs => some ("\x7b" ++ String.intercalate "," (stringifyFields fs) ++ "\x7d")

/-- Renders the elements of a JSON array (`undefined` becomes `null`). -/
def stringifyElems : List JVal → List String
  | [] => []
  | x :: xs => ((stringify x).getD "null") :: stringifyElems xs

/-- Renders the fields of a JSON object, omitting `undefined` values. -/
def stringifyFields : List (String × JVal) → List String
  | [] => []
  | (k, v) :: fs =>
      match stringify v with
      | none => stringifyFields fs
      | some s => ("\"" ++ escapeStr k ++ "\":" ++ s) :: stringifyFields fs

end

mutual

/-- JavaScript `String(v)` coercion, used when a row's key value becomes a
property key of the restructured object. -/
def jsToString : JVal → String
  | .undef => "undefined"
  | .null => "null"
  | .bool b => cond b "true" "false"
  | .num n => toString n
  | .str s => s
  | .arr xs => String.intercalate "," (jsToStringElems xs)
  | .obj _ => "[object Object]"

/-- `Array.prototype.toString` element rendering: `null` and `undefined`
elements become the empty string. -/
def jsToStringElems : List JVal → List String
  | [] => []
  | .null :: xs => "" :: jsToStringElems xs
  | .undef :: xs => "" :: jsToStringElems xs
  | x :: xs => jsToString x :: jsToStringElems xs

end

end JVal

/-! ## KeyedIndex

A JavaScript object used as a string-keyed map, modelled as an
insertion-ordered association list with unique keys: assigning to an
existing key replaces the value in place, assigning a fresh key appends.
(JavaScript additionally iterates integer-like keys in numeric order
before string keys; none of the properties proved here depends on the
iteration order of the index, so insertion order is kept.) -/

/-- Derived, ephemeral mapping from row-key string to row. -/
abbrev KeyedIndex := List (String × JVal)

namespace KeyedIndex

/-- JS property read on the index object. -/
def lookupKV (m : KeyedIndex) (k : String) : Option JVal :=
  JVal.findField k m

/-- JS property assignment `m[k] = v`: replaces in place or appends. -/
def insertKV : KeyedIndex → String → JVal → KeyedIndex
  | [], k, v => [(k, v)]
  | (k2, w) :: rest, k, v =>
      if k2 = k then (k, v) :: rest else (k2, w) :: insertKV rest k v

/-- JS `delete m[k]` (a no-op when the key is absent; the index keeps its
keys unique so at most one binding is removed). -/
def removeKV : KeyedIndex → String → KeyedIndex
  | [], _ => []
  | (k2, w) :: rest, k =>
      if k2 = k then removeKV rest k else (k2, w) :: removeKV rest k

/-- All keys distinct, as in any index built by repeated `insertKV`. -/
def distinctKeysB : KeyedIndex → Bool
  | [] => true
  | (k, _) :: rest => (lookupKV rest k).isNone && distinctKeysB rest

end KeyedIndex

/-! ## `_fnKeyStructData` (source lines 224-250)

Restructures an array of objects into an object keyed by the value of
the `key` property of each row. -/

/-- The message of the early missing-key throw (source 240): names the
key but no row position. -/
def missingKeyMsg (key : String) : String :=
  "Unable to parse data set, key \"" ++ key ++ "\" not found"

/-- The message of the in-loop missing-key throw (source 244): names the
key and the offending row's position. -/
def missingKeyAtMsg (key : String) (i : Nat) : String :=
  missingKeyMsg key ++ " at instance # " ++ toString i

/-- The `$.each` loop of `_fnKeyStructData` (source lines 242-247): walks
the rows with their positions, throwing when a row's key property is
`undefined`, otherwise assigning `result[String(v[key])] = v`. -/
def keyStructLoop (key : String) : List JVal → Nat → KeyedIndex →
    Except String KeyedIndex
  | [], _, acc => .ok acc
  | v :: rest, i, acc => do
      let f ← JVal.getField v key
      if f.isUndef then
        .error (missingKeyAtMsg key i)
      else
        keyStructLoop key rest (i + 1) (acc.insertKV (JVal.jsToString f) v)

/-- `_fnKeyStructData(key, data)`: returns `{}` for any input whose
`length` property is strictly equal to `0`, then validates that the data
is an array whose first element is a plain object carrying `key`, then
runs the indexing loop. Thrown JS errors are the `Except.error` cases. -/
def _fnKeyStructData (key : String) (data : JVal) : Except String KeyedIndex := do
  -- if( data.length === 0 ) return {};   (the length read itself throws on null/undefined)
  let len ← data.getField "length"
  if len.strictEqZero then
    return []
  else
    -- if( ! $.isArray(data)) throw ...
    if data.isArr = false then
      .error "Unable to parse data set, not in array format"
    else do
      -- if( ! $.isPlainObject(data[0])) throw ...
      let first ← data.getField "0"
      if first.isObj = false then
        .error "Unable to parse data set, structure needs to be an array of objects"
      else do
        -- if( typeof data[0][key] === 'undefined' ) throw ...
        let fk ← first.getField key
        if fk.isUndef then
          .error (missingKeyMsg key)
        else
          match data with
          | .arr rows => keyStructLoop key rows 0 []
          | _ => .error "unreachable: isArr checked"

/-! ## `_fnGetChanges` (source lines 265-298) -/

/-- The accumulator `updates` of `_fnGetChanges`: `create` is an array of
rows, `del` models the `delete` array of row-id strings, `update` the
object of updated rows. -/
structure Updates where
  create : List JVal
  del : List String
  update : List (String × JVal)

/-- The `$.each( dataA, ... )` loop of `_fnGetChanges` (source lines
273-287): keys absent from `dataB` are recorded as deleted, keys whose
`JSON.stringify` images differ are recorded as updated with `dataB`'s
row, and every processed key is deleted from `dataB`. Returns the final
accumulator and what is left of `dataB`. -/
def diffStep : KeyedIndex → KeyedIndex → Updates → Updates × KeyedIndex
  | [], dataB, u => (u, dataB)
  | (k, v) :: rest, dataB, u =>
      match dataB.lookupKV k with
      | none =>
          diffStep rest (dataB.removeKV k) { u with del := u.del ++ [k] }
      | some w =>
          let u2 :=
            if JVal.stringify v ≠ JVal.stringify w then
              { u with update := u.update ++ [(k, w)] }
            else u
          diffStep rest (dataB.removeKV k) u2

/-- `_fnGetChanges(dataA, dataB)`: diffs the two keyed indexes; the keys
remaining in `dataB` afterwards become the created rows; returns `none`
(the JS `null`, the "no changes" sentinel) when all three groups are
empty. -/
def _fnGetChanges (dataA dataB : KeyedIndex) : Option Updates :=
  let (u, rest) := diffStep dataA dataB ⟨[], [], []⟩
  let u2 := { u with create := u.create ++ rest.map (·.2) }
  if u2.create.length ≠ 0 ∨ u2.del.length ≠ 0 ∨ u2.update.length ≠ 0 then
    some u2
  else
    none

/-! ## Order-independent structural equality (the specification's words)

Modelled from the spec: "structurally equal as unordered data (same set
of rows under deep, order-independent value equality, regardless of row
order within the collections and of field order within each row)".  This
is the comparison the specification ascribes to the Reconciler; it is
*not* taken from the source (which compares `JSON.stringify` images) and
exists to state the refinement claims against the source behaviour. -/

/-- Key containment of field lists (no value comparison). -/
def fieldKeysSub (gs fs : List (String × JVal)) : Bool :=
  gs.all (fun kv => (JVal.findField kv.1 fs).isSome)

mutual

/-- Deep value equality with object-field order ignored (spec's words). -/
def jvalEquiv : JVal → JVal → Bool
  | .null, .null => true
  | .undef, .undef => true
  | .bool a, .bool b => a = b
  | .num a, .num b => a = b
  | .str a, .str b => a = b
  | .arr xs, .arr ys => jvalEquivElems xs ys
  | .obj fs, .obj gs => jvalEquivFieldsSub fs gs && fieldKeysSub gs fs
  | _, _ => false

/-- Pointwise equivalence of array elements (arrays stay ordered). -/
def jvalEquivElems : List JVal → List JVal → Bool
  | [], [] => true
  | x :: xs, y :: ys => jvalEquiv x y && jvalEquivElems xs ys
  | _, _ => false

/-- Every field of the first object matches, by key, an equivalent field
of the second. -/
def jvalEquivFieldsSub : List (String × JVal) → List (String × JVal) → Bool
  | [], _ => true
  | (k, v) :: rest, gs =>
      (match JVal.findField k gs with
       | some w => jvalEquiv v w
       | none => false) && jvalEquivFieldsSub rest gs

end

/-- Remove the first element equivalent to `x`, if any. -/
def findRemoveEquiv (x : JVal) : List JVal → Option (List JVal)
  | [] => none
  | y :: ys =>
      if jvalEquiv x y then some ys
      else (findRemoveEquiv x ys).map (fun r => y :: r)

/-- Spec's collection equality: same multiset of rows under
`jvalEquiv` — row order within the collections is irrelevant. -/
def collEquiv : List JVal → List JVal → Bool
  | [], ys => ys.isEmpty
  | x :: xs, ys =>
      match findRemoveEquiv x ys with
      | some ys2 => collEquiv xs ys2
      | none => false

/-! ## Poller state (the `dtSettings` object as the plugin uses it)

The polling loop runs on the single-threaded JS event loop; the
asynchronous boundary is modelled by explicit events (`Ev`): a pending
`setTimeout` firing, and an outstanding XHR completing with success or
failure.  Everything a handler does between two events is a pure
function from state to state plus a trace of externally visible
actions. -/

/-- Uppercase the first letter of a string (`_ucfirst`, source 209-212). -/
def _ucfirst (s : String) : String :=
  match s.toList with
  | [] => ""
  | c :: cs => String.mk (c.toUpper :: cs)

/-- JavaScript truthiness. -/
def JVal.jsTruthy : JVal → Bool
  | .undef => false
  | .null => false
  | .bool b => b
  | .num n => n ≠ 0
  | .str s => s ≠ ""
  | .arr _ => true
  | .obj _ => true

/-- A JavaScript argument as the plugin's API receives it: `undefined`, a
boolean, the `_doTimeout` polling closure, or a user-supplied callback
function. -/
inductive JsArg where
  | undef
  | jsBool (b : Bool)
  | pollerFn
  | userFn (tag : Nat)
  deriving DecidableEq

/-- `typeof a === 'function'` -/
def JsArg.isFunction : JsArg → Bool
  | .pollerFn => true
  | .userFn _ => true
  | _ => false

/-- Externally visible actions of one synchronous handler run: calls into
the DataTables API collaborator, events fired, callbacks invoked, timers
armed and cleared, XHR requests issued. -/
inductive Action where
  /-- `_api.row('#'+id).data(data)` -/
  | updateRow (sel : String) (row : JVal)
  /-- `_api.rows(['#'+id, ...]).remove()` -/
  | removeRows (sels : List String)
  /-- `_api.rows.add(rows)` -/
  | addRows (rows : List JVal)
  /-- `_api.clear().rows.add(data)` -/
  | clearAndAdd (data : JVal)
  /-- `_api.draw(resetPaging)` -/
  | draw (resetPaging : Bool)
  /-- a `_fnCallbackFire` event trigger -/
  | fireEvent (name : String)
  /-- an event trigger carrying a payload argument -/
  | fireEventArg (name arg : String)
  /-- the `liveAjax.callbacks.onUpdate` settings callback -/
  | callbackOnUpdate
  /-- the `liveAjax.callbacks.noUpdate` settings callback -/
  | callbackNoUpdate
  /-- a user callback handed to `initReload`/`reload` -/
  | userCallback (tag : Nat)
  /-- the XHR request is sent -/
  | issueFetch
  /-- `setTimeout(..., delayMs)` -/
  | armTimer (delayMs : Int)
  /-- `clearTimeout(...)` -/
  | clearTimer
  /-- `_fnLog` output -/
  | logError (msg : String)
  /-- `console.warn` output -/
  | warn (msg : String)

/-- Does the action touch the table collaborator's rows? -/
def Action.isTableOp : Action → Bool
  | .updateRow _ _ => true
  | .removeRows _ => true
  | .addRows _ => true
  | .clearAndAdd _ => true
  | _ => false

/-- Is the action a redraw? -/
def Action.isDraw : Action → Bool
  | .draw _ => true
  | _ => false

/-- Is the action the sending of an XHR request? -/
def Action.isIssueFetch : Action → Bool
  | .issueFetch => true
  | _ => false

/-- Is the action the arming of a `setTimeout`? -/
def Action.isArmTimer : Action → Bool
  | .armTimer _ => true
  | _ => false

/-- The per-table state the plugin reads and writes: the
`dtSettings.liveAjax` namespace built at init (source 804-875) plus the
DataTables core fields the plugin touches (`dtSettings.json`,
`dtSettings.jqXHR`).  `jqXHRReadyState = none` models
`dtSettings.jqXHR === undefined`; `timerArmed` models a pending
`setTimeout` handle in `updateLoop`, with the delay it was armed with. -/
structure DtSettings where
  interval : Int
  initInterval : Int
  dtCallbacks : Bool
  resetPaging : Bool
  abortOn : List String
  rowId : String
  dataSrc : String
  previousJson : JVal
  paused : Bool
  latestError : Option String
  timerArmed : Bool
  timerDelay : Int
  totalUpdates : Nat
  totalIterations : Nat
  lastResult : JVal
  lastUpdates : Option Updates
  json : JVal
  jqXHRReadyState : Option Nat
  fetchDoneCb : JsArg
  fetchFailCb : JsArg
  fetchAlwaysCb : JsArg

/-- `_isXhrClear` (source 583-585): no jqXHR yet, or its readyState is
COMPLETE (4) or NOT_INIT (0). -/
def isXhrClear (st : DtSettings) : Bool :=
  match st.jqXHRReadyState with
  | none => true
  | some rs => rs == 4 || rs == 0

/-- An XHR request is outstanding (sent but not settled). -/
def fetchInFlight (st : DtSettings) : Bool :=
  match st.jqXHRReadyState with
  | none => false
  | some rs => !(rs == 4) && !(rs == 0)

/-- Minimum `setTimeout` interval in ms (`_minInterval`, source 682). -/
def _minInterval : Int := 1500

/-! ## `_processNewJson` (source 717-801) -/

/-- The tail of `_processNewJson` (source 781-799): redraw plus the
`onUpdate` event and settings callback when anything changed, the
`noUpdate` event and settings callback otherwise.  (The settings
callbacks are never `undefined`: `_getOpt` falls back to the no-op
functions of `_defaults`, so the `!== undefined` guards always pass.) -/
def finishDraw (st : DtSettings) (ops : List Action) (doDraw : Bool) :
    DtSettings × List Action :=
  if doDraw then
    (st, ops ++ [Action.draw st.resetPaging, Action.fireEvent "onUpdate",
      Action.callbackOnUpdate])
  else
    (st, ops ++ [Action.fireEvent "noUpdate", Action.callbackNoUpdate])

/-- `_processNewJson(json)`: diff the newly fetched payload against the
stored one and patch the table.  Property reads that throw in JS
(`json[dataSrc][0][rowId]` on malformed payloads, `.length` inside
`_fnKeyStructData`) are the `Except.error` cases. -/
def _processNewJson (st : DtSettings) (json : JVal) :
    Except String (DtSettings × List Action) := do
  -- If somehow previousJson got wiped out, define it and quit processing
  if st.previousJson.isUndef then
    return ({ st with previousJson := json }, [])
  else do
    -- json[ dataSrc ][0][ rowId ]
    let dsrc ← json.getField st.dataSrc
    let first ← dsrc.getField "0"
    let ridVal ← first.getField st.rowId
    if ridVal.isUndef then do
      -- no rowId: whole-payload JSON.stringify comparison (source 728-736)
      let prevDsrc ← st.previousJson.getField st.dataSrc
      if JVal.stringify prevDsrc ≠ JVal.stringify dsrc then
        return finishDraw st [Action.clearAndAdd dsrc] true
      else
        return finishDraw st [] false
    else do
      -- rowId exists: row-level diff (source 738-779)
      let prevDsrc ← st.previousJson.getField st.dataSrc
      let idxPrev ← _fnKeyStructData st.rowId prevDsrc
      let idxCur ← _fnKeyStructData st.rowId dsrc
      match _fnGetChanges idxPrev idxCur with
      | none => return finishDraw st [] false
      | some u =>
          -- updated rows, then deleted rows, then created rows (source 749-763)
          let ops :=
            u.update.map (fun kv => Action.updateRow ("#" ++ kv.1) kv.2)
            ++ (if u.del.length ≠ 0 then
                  [Action.removeRows (u.del.map (fun v => "#" ++ v))] else [])
            ++ (if u.create.length ≠ 0 then [Action.addRows u.create] else [])
          let st2 := { st with
            json := json
            lastUpdates := some u
            totalUpdates := st.totalUpdates + 1 }
          return finishDraw st2 ops true

/-! ## XHR completion handlers (source 480-505 and 549-575)

jQuery fires a jqXHR's callbacks in attachment order: on success the
`success` option handler (which runs `_processNewJson`), then the
`.done` handler of `_fnBuildAjax` (which replaces `previousJson`), then
the `.done` user callback attached by `initReload`, then the two
`.always` handlers; on failure the `error` option handler, the two
`.fail` handlers, then the `.always` handlers.  An exception thrown by
a handler aborts the rest of the chain (the `Except.error` case). -/

/-- The matching `Action.userCallback` when a stored callback is a
function. -/
def userCbActs : JsArg → List Action
  | .userFn t => [Action.userCallback t]
  | _ => []

/-- A failed fetch settles: the `error` option handler's logging, the two
liveAjax `.fail` events, the user fail callback, then the `.always`
bookkeeping (`lastResult`, `totalIterations`) and the user always
callback.  `rsFinal` is the jqXHR's readyState after settling (4 for an
HTTP error response, 0 for a timeout or abort). -/
def fetchFailHandler (st : DtSettings) (textStatus : String) (rsFinal : Nat) :
    DtSettings × List Action :=
  let st1 := { st with jqXHRReadyState := some rsFinal }
  let logActs :=
    (if st.dtCallbacks then [Action.fireEvent "xhr"] else [])
    ++ (if textStatus = "parsererror" then [Action.logError "Invalid JSON response"]
        else if rsFinal = 4 then [Action.logError "Ajax error"] else [])
  let evActs := [Action.fireEvent ("xhrErr" ++ _ucfirst textStatus),
    Action.fireEvent "xhrErr"]
  let st2 := { st1 with
    lastResult := .str textStatus
    totalIterations := st1.totalIterations + 1 }
  (st2, logActs ++ evActs ++ userCbActs st.fetchFailCb ++ userCbActs st.fetchAlwaysCb)

/-- A successful fetch settles: the `success` option handler (error-field
logging, `dtSettings.json = json`, `_processNewJson`), then the `.done`
handler replacing `previousJson` with the raw response, the user done
callback, the `.always` bookkeeping and the user always callback. -/
def fetchSucceedHandler (st : DtSettings) (json : JVal) (textStatus : String) :
    Except String (DtSettings × List Action) := do
  let st0 := { st with jqXHRReadyState := some 4 }
  -- var error = json.error || json.sError; if ( error ) _fnLog(...)
  let e1 ← json.getField "error"
  let errv ← if e1.jsTruthy then pure e1 else json.getField "sError"
  let logActs := if errv.jsTruthy then [Action.logError (JVal.jsToString errv)] else []
  let xhrActs := if st.dtCallbacks then [Action.fireEvent "xhr"] else []
  let (st2, ops) ← _processNewJson { st0 with json := json } json
  let st3 := { st2 with previousJson := json }
  let st4 := { st3 with
    lastResult := .str textStatus
    totalIterations := st3.totalIterations + 1 }
  return (st4, logActs ++ xhrActs ++ ops
    ++ userCbActs st.fetchDoneCb ++ userCbActs st.fetchAlwaysCb)

/-! ## The polling loop (source 593-617 and 834-874) -/

/-- The abort log message of `_doTimeout`'s polling continuation
(source 611). -/
def abortLogMsg : String :=
  "[liveAjax] Abortable status retrieved from last XHR request - aborting updates"

/-- The polling continuation passed to `initReload` by `_doTimeout`
(source 606-612): if the last recorded XHR status is not in `abortOn`,
re-invoke `_doTimeout`, which arms `setTimeout` with the current
interval; otherwise log and stop (no timer armed). -/
def pollerStep (st : DtSettings) : DtSettings × List Action :=
  if !(match st.lastResult with
       | .str s => st.abortOn.contains s
       | _ => false) then
    ({ st with timerArmed := true, timerDelay := st.interval },
     [Action.armTimer st.interval])
  else
    (st, [Action.logError abortLogMsg])

/-- `_initUpdates` (source 593-617): refuses to duplicate the loop while
an XHR is outstanding, otherwise arms the first `setTimeout` with the
current interval and fires the `init` event. -/
def _initUpdates (st : DtSettings) : DtSettings × List Action :=
  if !isXhrClear st then
    (st, [Action.warn "liveAjax already initiated"])
  else
    ({ st with timerArmed := true, timerDelay := st.interval },
     [Action.armTimer st.interval, Action.fireEvent "init"])

/-- `_clearTimeout` (source 624-628). -/
def _clearTimeout (st : DtSettings) : DtSettings × List Action :=
  ({ st with timerArmed := false },
   [Action.clearTimer, Action.fireEvent "clearTimeout"])

/-- `_abortXhr` (source 635-648): `jqXHR.abort()` inside try/catch, then
the `abortXhr` event.  With no jqXHR the call throws and the catch
stores the message; on a settled jqXHR the abort is a no-op; on an
outstanding one jQuery synchronously rejects with textStatus `abort`,
running the fail/always handler chain. -/
def _abortXhr (st : DtSettings) : DtSettings × List Action :=
  match st.jqXHRReadyState with
  | none =>
      ({ st with latestError := some "TypeError: cannot call abort of undefined" },
       [Action.fireEvent "abortXhr"])
  | some rs =>
      if rs == 4 || rs == 0 then
        (st, [Action.fireEvent "abortXhr"])
      else
        let r := fetchFailHandler st "abort" 0
        (r.1, r.2 ++ [Action.fireEvent "abortXhr"])

/-- `initReload` (source 834-874).  When the gate (`_isXhrClear` and not
paused, unless `overridePause === true`) passes, `_fnBuildAjax` sends
the XHR (its completion is a later event) and the per-call user
callbacks are attached to the jqXHR.  Otherwise the skip branch fires
`xhrSkipped` with a reason read from `dtSettings.jqXHR.readyState`
(throwing when no jqXHR exists) and — source line 866 — evaluating the
identifiers `data_jqXHR`, `textStatus`, `jqXHR_errorThrown`, which are
not in scope there, throws a ReferenceError when an always callback was
supplied.  In both branches `pollingFn`, when a function, runs
synchronously at the end (source 871-873). -/
def initReload (st : DtSettings)
    (pollingFn overridePause doneCb failCb alwaysCb : JsArg) :
    Except String (DtSettings × List Action) := do
  let (st1, acts1) ←
    if isXhrClear st && (!st.paused || overridePause == JsArg.jsBool true) then
      Except.ok
        ({ st with
            jqXHRReadyState := some 1
            fetchDoneCb := doneCb
            fetchFailCb := failCb
            fetchAlwaysCb := alwaysCb },
         (if st.dtCallbacks then
            [Action.fireEvent "serverParams", Action.fireEvent "preXhr"] else [])
         ++ [Action.issueFetch])
    else
      match st.jqXHRReadyState with
      | none => Except.error "TypeError: cannot read readyState of undefined"
      | some rs =>
          let acts := [Action.fireEventArg "xhrSkipped"
            (if rs < 4 then "processing" else "paused")]
          if alwaysCb.isFunction then
            Except.error "ReferenceError: data_jqXHR is not defined"
          else
            Except.ok (st, acts)
  match pollingFn with
  | .pollerFn =>
      let r := pollerStep st1
      return (r.1, acts1 ++ r.2)
  | .userFn t => return (st1, acts1 ++ [Action.userCallback t])
  | _ => return (st1, acts1)

/-! ## API methods (source 912-1060) -/

/-- `liveAjax.initiate()` (source 912-916). -/
def initiateApi (st : DtSettings) : DtSettings × List Action :=
  _initUpdates st

/-- `liveAjax.abortXhr()` (source 925-929). -/
def abortXhrApi (st : DtSettings) : DtSettings × List Action :=
  _abortXhr st

/-- `liveAjax.clearTimeout(abortXhr)` (source 938-947). -/
def clearTimeoutApi (st : DtSettings) (abortXhr : Bool) : DtSettings × List Action :=
  let r1 := if abortXhr then _abortXhr st else (st, [])
  let r2 := _clearTimeout r1.1
  (r2.1, r1.2 ++ r2.2)

/-- `_setPauseStatus` (source 656-660), backing pause/resume/toggle. -/
def _setPauseStatus (st : DtSettings) (status : Bool) : DtSettings × List Action :=
  ({ st with paused := status }, [Action.fireEvent "setPause"])

/-- `liveAjax.pause()` (source 956-960). -/
def pauseApi (st : DtSettings) : DtSettings × List Action :=
  _setPauseStatus st true

/-- `liveAjax.resume()` (source 969-973). -/
def resumeApi (st : DtSettings) : DtSettings × List Action :=
  _setPauseStatus st false

/-- `liveAjax.togglePause()` (source 995-999). -/
def togglePauseApi (st : DtSettings) : DtSettings × List Action :=
  _setPauseStatus st (!st.paused)

/-- `liveAjax.reload(overridePause, doneCallback, failCallback,
alwaysCallback)` (source 1026-1030): forwards its four arguments to
`initReload`, whose first parameter is `pollingFn` — the arguments
therefore land one position to the left of their names. -/
def reloadApi (st : DtSettings)
    (overridePause doneCallback failCallback alwaysCallback : JsArg) :
    Except String (DtSettings × List Action) :=
  initReload st overridePause doneCallback failCallback alwaysCallback JsArg.undef

/-- `liveAjax.setInterval(int, immediate)` (source 1044-1060): `newInt`
is `int || initInterval`; when `immediate === true` it aborts the XHR,
clears the pending timer and re-runs `_initUpdates` — all *before* the
clamped `newInt` is stored into `liveAjax.interval`. -/
def setIntervalApi (st : DtSettings) (int : Option Int) (immediate : Bool) :
    DtSettings × List Action :=
  let newInt : Int :=
    match int with
    | none => st.initInterval
    | some n => if n = 0 then st.initInterval else n
  let r :=
    if immediate then
      let ra := _abortXhr st
      let rb := _clearTimeout ra.1
      let rc := _initUpdates rb.1
      (rc.1, ra.2 ++ rb.2 ++ rc.2)
    else (st, [])
  ({ r.1 with interval := if _minInterval > newInt then _minInterval else newInt },
   r.2 ++ [Action.fireEvent "setInterval"])

/-! ## Session initialization (source 686-901) -/

/-- The recognized init options, after DataTables has performed the
initial AJAX load (`initialJson`, `initialReadyState`).  `none` models an
option the user did not supply. -/
structure InitOptions where
  interval : Option Int
  dtCallbacks : Bool
  resetPaging : Bool
  abortOn : Option (List String)
  rowId : String
  dataSrc : Option String
  initialJson : JVal
  initialReadyState : Option Nat

/-- The resolved polling interval (source 806-811):
`_minInterval > parseInt(_getOpt('interval')) ? _minInterval : parseInt(...)`
with the `_defaults` value 4000 when the option is absent (`parseInt` of
an integral JS number is the number itself). -/
def resolveInterval (opt : Option Int) : Int :=
  let v : Int := opt.getD 4000
  if _minInterval > v then _minInterval else v

/-- The `init.dt` handler (source 686-901): populates
`dtSettings.liveAjax` from the options and `_defaults`, then runs
`_initUpdates`. -/
def initSession (o : InitOptions) : DtSettings × List Action :=
  let st : DtSettings := {
    interval := resolveInterval o.interval
    initInterval := resolveInterval o.interval
    dtCallbacks := o.dtCallbacks
    resetPaging := o.resetPaging
    abortOn := o.abortOn.getD ["error", "timeout", "parsererror"]
    rowId := o.rowId
    dataSrc := o.dataSrc.getD "data"
    previousJson := o.initialJson
    paused := false
    latestError := none
    timerArmed := false
    timerDelay := 0
    totalUpdates := 0
    totalIterations := 0
    lastResult := .undef
    lastUpdates := none
    json := o.initialJson
    jqXHRReadyState := o.initialReadyState
    fetchDoneCb := .undef
    fetchFailCb := .undef
    fetchAlwaysCb := .undef }
  _initUpdates st

/-! ## Event-loop semantics

One logical timeline: a run is a list of external events applied in
order.  A timer can fire only while armed; an XHR can settle only while
outstanding. -/

/-- External events: the pending `setTimeout` fires, or the outstanding
XHR settles with a success (payload and textStatus) or a failure
(textStatus and final readyState). -/
inductive Ev where
  | timerFire
  | fetchSucceed (json : JVal) (textStatus : String)
  | fetchFail (textStatus : String) (rsFinal : Nat)

/-- One event-loop step. A timer firing runs the `setTimeout` body of
`_doTimeout` (source 602-613): `initReload` with the polling
continuation. -/
def step (st : DtSettings) (e : Ev) : Except String (DtSettings × List Action) :=
  match e with
  | .timerFire =>
      if st.timerArmed then
        initReload { st with timerArmed := false }
          .pollerFn .undef .undef .undef .undef
      else
        .ok (st, [])
  | .fetchSucceed json ts =>
      if fetchInFlight st then fetchSucceedHandler st json ts else .ok (st, [])
  | .fetchFail ts rs =>
      if fetchInFlight st then .ok (fetchFailHandler st ts rs) else .ok (st, [])

/-- Run a sequence of events, accumulating the action trace. -/
def runEvents : DtSettings → List Ev → Except String (DtSettings × List Action)
  | st, [] => .ok (st, [])
  | st, e :: es => do
      let (st1, a1) ← step st e
      let (st2, a2) ← runEvents st1 es
      return (st2, a1 ++ a2)

/-! ## Predicates used to state the claims -/

/-- A row (an object) carries a defined `key` field — the negation of
`typeof v[key] === 'undefined'` for object rows. -/
def rowHasKeyB (key : String) : JVal → Bool
  | .obj fs => !((JVal.findField key fs).getD .undef).isUndef
  | _ => false

/-- Two keyed indexes define the same map from keys to rows up to
`JSON.stringify`-equality of the rows: every binding of the first finds a
stringify-equal row under the same key in the second, and every key of
the second occurs in the first. -/
def indexEquivB (dataA dataB : KeyedIndex) : Bool :=
  dataA.all (fun kv =>
    match dataB.lookupKV kv.1 with
    | some w => JVal.stringify kv.2 == JVal.stringify w
    | none => false)
  && dataB.all (fun kv => (dataA.lookupKV kv.1).isSome)

/-- A list of phase numbers is nondecreasing. -/
def nondecreasing : List Nat → Bool
  | [] => true
  | [_] => true
  | a :: b :: rest => if a ≤ b then nondecreasing (b :: rest) else false

/-- Phases in the order the claim asserts: deletions, then updates, then
creations, then the redraw. -/
def phaseClaimed : Action → Option Nat
  | .removeRows _ => some 0
  | .updateRow _ _ => some 1
  | .addRows _ => some 2
  | .draw _ => some 3
  | _ => none

/-- Phases in the order the code applies: updates, then deletions, then
creations, then the redraw. -/
def phaseApplied : Action → Option Nat
  | .updateRow _ _ => some 0
  | .removeRows _ => some 1
  | .addRows _ => some 2
  | .draw _ => some 3
  | _ => none

/-- The table-mutation/redraw actions of a trace occur in the order given
by `phase`. -/
def phasedOK (phase : Action → Option Nat) (ops : List Action) : Bool :=
  nondecreasing (ops.filterMap phase)

/-- The scheduling-interval floor invariant: both the live interval and
the remembered init interval sit at or above `_minInterval`. -/
def intervalInv (st : DtSettings) : Prop :=
  _minInterval ≤ st.interval ∧ _minInterval ≤ st.initInterval

/-! ## Concrete fixtures for the claims -/

/-- A session state as left by a typical initialization: rowKey `id`,
data-source field `data`, default options, initial load settled
(`readyState` 4), snapshot `prevJson`. -/
def mkState (prevJson : JVal) : DtSettings := {
  interval := 4000
  initInterval := 4000
  dtCallbacks := false
  resetPaging := false
  abortOn := ["error", "timeout", "parsererror"]
  rowId := "id"
  dataSrc := "data"
  previousJson := prevJson
  paused := false
  latestError := none
  timerArmed := false
  timerDelay := 0
  totalUpdates := 0
  totalIterations := 0
  lastResult := .undef
  lastUpdates := none
  json := prevJson
  jqXHRReadyState := some 4
  fetchDoneCb := .undef
  fetchFailCb := .undef
  fetchAlwaysCb := .undef }

/-- `{id:1, a:2}` -/
def rowA : JVal := .obj [("id", .num 1), ("a", .num 2)]

/-- `{a:2, id:1}` — same fields as `rowA`, other field order. -/
def rowA2 : JVal := .obj [("a", .num 2), ("id", .num 1)]

/-- `{id:1, v:1}` / `{id:2, v:2}` / updated `{id:1, v:9}` / new `{id:3, v:3}` -/
def rowP1 : JVal := .obj [("id", .num 1), ("v", .num 1)]

def rowP2 : JVal := .obj [("id", .num 2), ("v", .num 2)]

def rowC1 : JVal := .obj [("id", .num 1), ("v", .num 9)]

def rowC3 : JVal := .obj [("id", .num 3), ("v", .num 3)]

/-- Envelope `{data: [rowP1, rowP2]}` -/
def envPrev : JVal := .obj [("data", .arr [rowP1, rowP2])]

/-- Envelope `{data: [rowC1, rowC3]}` -/
def envCur : JVal := .obj [("data", .arr [rowC1, rowC3])]

/-- Envelope `{data: [rowP1], ts: 1}` -/
def envTs1 : JVal := .obj [("data", .arr [rowP1]), ("ts", .num 1)]

/-- Envelope `{data: [rowP1], ts: 2}` — same rows, different `ts`. -/
def envTs2 : JVal := .obj [("data", .arr [rowP1]), ("ts", .num 2)]

/-- The ChangeSet produced by diffing `envPrev` against `envCur`. -/
def c2Updates : Updates :=
  { create := [rowC3], del := ["2"], update := [("1", rowC1)] }

/-- The trace `_processNewJson` emits for `envPrev` → `envCur`. -/
def c2Ops : List Action :=
  [Action.updateRow "#1" rowC1, Action.removeRows ["#2"],
   Action.addRows [rowC3], Action.draw false, Action.fireEvent "onUpdate",
   Action.callbackOnUpdate]

/-- The state after a successful no-change fetch of `envTs2` over a
snapshot `envTs1`. -/
def c3StateAfter : DtSettings :=
  { mkState envTs1 with
    previousJson := envTs2
    json := envTs2
    lastResult := .str "success"
    totalIterations := 1 }

/-- The trace of that no-change fetch. -/
def c3Ops : List Action :=
  [Action.fireEvent "noUpdate", Action.callbackNoUpdate]

/-- C6 trace, initial state: session over `envPrev`, timer armed. -/
def c6S0 : DtSettings := { mkState envPrev with timerArmed := true }

/-- C6 trace after tick 1: fetch 1 outstanding, next timer armed. -/
def c6S1 : DtSettings :=
  { mkState envPrev with
    timerArmed := true
    timerDelay := 4000
    jqXHRReadyState := some 1 }

/-- C6 trace after fetch 1 fails with `error`. -/
def c6S2 : DtSettings :=
  { mkState envPrev with
    timerArmed := true
    timerDelay := 4000
    jqXHRReadyState := some 4
    lastResult := .str "error"
    totalIterations := 1 }

/-- C6 trace after tick 2: a second fetch was issued despite the
abortable failure; no further timer armed. -/
def c6S3 : DtSettings :=
  { mkState envPrev with
    timerDelay := 4000
    jqXHRReadyState := some 1
    lastResult := .str "error"
    totalIterations := 1 }

/-- C6 trace after fetch 2 succeeds: loop dead. -/
def c6S4 : DtSettings :=
  { mkState envPrev with
    timerDelay := 4000
    jqXHRReadyState := some 4
    lastResult := .str "success"
    totalIterations := 2 }

/-! # Helper lemmas: keyed-index association lists -/

theorem lookupKV_removeKV_self : ∀ (B : KeyedIndex) (k : String),
    (B.removeKV k).lookupKV k = none
  | [], _ => rfl
  | (k2, w) :: rest, k => by
      unfold KeyedIndex.removeKV
      by_cases h : k2 = k
      · simpa [h] using lookupKV_removeKV_self rest k
      · simpa [KeyedIndex.lookupKV, JVal.findField, h]
          using lookupKV_removeKV_self rest k

theorem lookupKV_removeKV_ne : ∀ (B : KeyedIndex) (k k' : String), k' ≠ k →
    (B.removeKV k).lookupKV k' = B.lookupKV k'
  | [], _, _, _ => rfl
  | (k2, w) :: rest, k, k', h => by
      unfold KeyedIndex.removeKV
      by_cases h2 : k2 = k
      · rw [if_pos h2]
        have hne : ¬(k2 = k') := fun hc => h (hc ▸ h2)
        calc KeyedIndex.lookupKV (KeyedIndex.removeKV rest k) k'
            = KeyedIndex.lookupKV rest k' := lookupKV_removeKV_ne rest k k' h
          _ = KeyedIndex.lookupKV ((k2, w) :: rest) k' := by
              simp [KeyedIndex.lookupKV, JVal.findField, hne]
      · rw [if_neg h2]
        by_cases h3 : k2 = k'
        · simp [KeyedIndex.lookupKV, JVal.findField, h3]
        · simpa [KeyedIndex.lookupKV, JVal.findField, h3]
            using lookupKV_removeKV_ne rest k k' h

theorem mem_removeKV : ∀ {B : KeyedIndex} {k : String} {kv : String × JVal},
    kv ∈ B.removeKV k → kv ∈ B ∧ kv.1 ≠ k := by
  intro B
  induction B with
  | nil => intro k kv h; exact absurd h (by simp [KeyedIndex.removeKV])
  | cons hd rest ih =>
      intro k kv h
      obtain ⟨k2, w⟩ := hd
      unfold KeyedIndex.removeKV at h
      by_cases h2 : k2 = k
      · rw [if_pos h2] at h
        obtain ⟨h3, h4⟩ := ih h
        exact ⟨List.mem_cons_of_mem _ h3, h4⟩
      · rw [if_neg h2] at h
        rcases List.mem_cons.mp h with h3 | h3
        · subst h3; exact ⟨List.mem_cons_self _ _, h2⟩
        · obtain ⟨h4, h5⟩ := ih h3
          exact ⟨List.mem_cons_of_mem _ h4, h5⟩

theorem lookupKV_isSome_of_mem : ∀ {B : KeyedIndex} {kv : String × JVal},
    kv ∈ B → (B.lookupKV kv.1).isSome = true := by
  intro B
  induction B with
  | nil => intro kv h; exact absurd h (List.not_mem_nil kv)
  | cons hd rest ih =>
      intro kv h
      obtain ⟨k2, w⟩ := hd
      rcases List.mem_cons.mp h with h2 | h2
      · subst h2; simp [KeyedIndex.lookupKV, JVal.findField]
      · by_cases h3 : k2 = kv.1
        · simp [KeyedIndex.lookupKV, JVal.findField, h3]
        · simpa [KeyedIndex.lookupKV, JVal.findField, h3] using ih h2

theorem key_ne_of_lookupKV_none : ∀ {A : KeyedIndex} {k : String},
    A.lookupKV k = none → ∀ kv ∈ A, kv.1 ≠ k := by
  intro A
  induction A with
  | nil => intro k _ kv h; exact absurd h (List.not_mem_nil kv)
  | cons hd rest ih =>
      intro k hnone kv h
      obtain ⟨k2, w⟩ := hd
      by_cases h2 : k2 = k
      · simp [KeyedIndex.lookupKV, JVal.findField, h2] at hnone
      · rcases List.mem_cons.mp h with h3 | h3
        · subst h3; exact h2
        · refine ih ?_ kv h3
          simpa [KeyedIndex.lookupKV, JVal.findField, h2] using hnone

/-- Core of the amended C1: on a duplicate-free index `A` and any index
`B` that binds exactly the same keys to stringify-equal rows, the diff
loop of `_fnGetChanges` records nothing and consumes all of `B`. -/
theorem diffStep_of_equiv : ∀ (A B : KeyedIndex) (u : Updates),
    KeyedIndex.distinctKeysB A = true → indexEquivB A B = true →
    diffStep A B u = (u, []) := by
  intro A
  induction A with
  | nil =>
      intro B u _ hequiv
      unfold indexEquivB at hequiv
      rw [Bool.and_eq_true] at hequiv
      obtain ⟨-, hB⟩ := hequiv
      cases B with
      | nil => rfl
      | cons kv rest =>
          rw [List.all_eq_true] at hB
          have := hB kv (List.mem_cons_self _ _)
          simp [KeyedIndex.lookupKV, JVal.findField] at this
  | cons hd A' ih =>
      intro B u hdist hequiv
      obtain ⟨k, v⟩ := hd
      unfold KeyedIndex.distinctKeysB at hdist
      rw [Bool.and_eq_true] at hdist
      obtain ⟨hA'k, hdist'⟩ := hdist
      unfold indexEquivB at hequiv
      rw [Bool.and_eq_true] at hequiv
      obtain ⟨hAB, hBA⟩ := hequiv
      rw [List.all_eq_true] at hAB hBA
      have hhead := hAB (k, v) (List.mem_cons_self _ _)
      cases hw : B.lookupKV k with
      | none => rw [hw] at hhead; simp at hhead
      | some w =>
          rw [hw] at hhead
          have hstr : JVal.stringify v = JVal.stringify w := by
            simpa using hhead
          show diffStep ((k, v) :: A') B u = (u, [])
          unfold diffStep
          rw [hw]
          have hne : ¬(JVal.stringify v ≠ JVal.stringify w) := by
            simp [hstr]
          show diffStep A' (B.removeKV k)
            (if JVal.stringify v ≠ JVal.stringify w then
              { u with update := u.update ++ [(k, w)] } else u) = (u, [])
          rw [if_neg hne]
          refine ih (B.removeKV k) u hdist' ?_
          unfold indexEquivB
          rw [Bool.and_eq_true]
          constructor
          · rw [List.all_eq_true]
            intro kv hkv
            have hne2 : kv.1 ≠ k :=
              key_ne_of_lookupKV_none (by simpa using hA'k) kv hkv
            rw [lookupKV_removeKV_ne B k kv.1 hne2]
            exact hAB kv (List.mem_cons_of_mem _ hkv)
          · rw [List.all_eq_true]
            intro kv hkv
            obtain ⟨hmem, hne2⟩ := mem_removeKV hkv
            have := hBA kv hmem
            simpa [KeyedIndex.lookupKV, JVal.findField, hne2.symm] using this

/-! # Claim C1 -/

/-- C1 (counterexample): the two one-row collections hold the same rows
under deep, order-independent value equality (`collEquiv` — only the
field order inside the row differs), both index cleanly under rowKey
`id`, yet `_fnGetChanges` on their two KeyedIndexes does not return the
"no changes" sentinel: it records the key `"1"`, whose two rows are
deep-equal by value, in `updated` — because the source compares rows by
`JSON.stringify`, which is sensitive to object-field order. -/
theorem C1_counterexample :
    collEquiv [rowA] [rowA2] = true ∧
    _fnKeyStructData "id" (.arr [rowA]) = .ok [("1", rowA)] ∧
    _fnKeyStructData "id" (.arr [rowA2]) = .ok [("1", rowA2)] ∧
    _fnGetChanges [("1", rowA)] [("1", rowA2)] =
      some { create := [], del := [], update := [("1", rowA2)] } :=
  ⟨rfl, rfl, rfl, rfl⟩

/-- C1 (amended): when the two KeyedIndexes bind exactly the same keys
to `JSON.stringify`-equal rows — in particular whenever the two
collections contain the same rows with identical field order, in any
row order — `_fnGetChanges` returns the "no changes" sentinel; a key
present in both whose rows are stringify-equal is never recorded in
`updated`.  Deep-equal rows that differ in field order are *not* covered
(see the counterexample). -/
theorem C1_amended (dataA dataB : KeyedIndex)
    (h1 : KeyedIndex.distinctKeysB dataA = true)
    (h2 : indexEquivB dataA dataB = true) :
    _fnGetChanges dataA dataB = none := by
  unfold _fnGetChanges
  rw [diffStep_of_equiv dataA dataB ⟨[], [], []⟩ h1 h2]
  simp

/-- C1 (witness): the amended theorem applied to a two-row index and its
row-order permutation. -/
theorem C1_amended_witness :
    KeyedIndex.distinctKeysB [("1", rowP1), ("2", rowP2)] = true ∧
    indexEquivB [("1", rowP1), ("2", rowP2)] [("2", rowP2), ("1", rowP1)] = true ∧
    _fnGetChanges [("1", rowP1), ("2", rowP2)] [("2", rowP2), ("1", rowP1)] = none :=
  ⟨rfl, rfl, C1_amended _ _ rfl rfl⟩

/-! # Trace-order helper lemmas -/

theorem nondecreasing_cons_zero (l : List Nat) (h : nondecreasing l = true) :
    nondecreasing (0 :: l) = true := by
  cases l with
  | nil => rfl
  | cons a t => simpa [nondecreasing, Nat.zero_le] using h

theorem nondecreasing_zeros_append {α : Type} (m : List α) (l : List Nat)
    (h : nondecreasing l = true) :
    nondecreasing (m.map (fun _ => 0) ++ l) = true := by
  induction m with
  | nil => simpa using h
  | cons a t ih => simpa using nondecreasing_cons_zero _ ih

theorem filterMap_phase_updateRows : ∀ (l : List (String × JVal)),
    (l.map (fun kv => Action.updateRow ("#" ++ kv.1) kv.2)).filterMap phaseApplied
      = l.map (fun _ => (0 : Nat)) := by
  intro l
  induction l with
  | nil => rfl
  | cons a t ih => simpa [List.filterMap_cons, phaseApplied] using ih

theorem countP_updateRows_eq_zero (p : Action → Bool)
    (hp : ∀ s r, p (Action.updateRow s r) = false) :
    ∀ (l : List (String × JVal)),
      (l.map (fun kv => Action.updateRow ("#" ++ kv.1) kv.2)).countP p = 0 := by
  intro l
  induction l with
  | nil => rfl
  | cons a t ih => simp [List.countP_cons, hp, ih]

theorem finishDraw_true (s : DtSettings) (o : List Action) :
    finishDraw s o true = (s, o ++ [Action.draw s.resetPaging,
      Action.fireEvent "onUpdate", Action.callbackOnUpdate]) := rfl

theorem finishDraw_false (s : DtSettings) (o : List Action) :
    finishDraw s o false = (s, o ++ [Action.fireEvent "noUpdate",
      Action.callbackNoUpdate]) := rfl

/-- Structure of every successful `_processNewJson` run: the scheduling
fields are untouched; the table-mutation trace is phased updates →
deletions → creations → redraw; and a run that never redraws touches no
rows and (when a snapshot existed) fires the `noUpdate` event. -/
theorem processNewJson_spec (st : DtSettings) (json : JVal) (st2 : DtSettings)
    (ops : List Action) (h : _processNewJson st json = .ok (st2, ops)) :
    st2.interval = st.interval ∧ st2.initInterval = st.initInterval ∧
    phasedOK phaseApplied ops = true ∧
    (ops.countP Action.isDraw = 0 →
      ops.countP Action.isTableOp = 0 ∧
      (st.previousJson.isUndef = false → Action.fireEvent "noUpdate" ∈ ops)) := by
  unfold _processNewJson at h
  simp only [bind, Except.bind, pure, Except.pure] at h
  split at h
  case isTrue hundef =>
    simp only [Except.ok.injEq, Prod.mk.injEq] at h
    obtain ⟨hst, hops⟩ := h
    subst hst
    subst hops
    refine ⟨rfl, rfl, rfl, fun _ => ⟨rfl, fun hc => ?_⟩⟩
    rw [hundef] at hc
    exact absurd hc (by simp)
  case isFalse hundef =>
    have hprev : st.previousJson.isUndef = false := by
      cases hx : st.previousJson.isUndef
      · rfl
      · exact absurd hx hundef
    split at h
    case h_1 => simp at h
    case h_2 dsrc hdsrc =>
      split at h
      case h_1 => simp at h
      case h_2 first hfirst =>
        split at h
        case h_1 => simp at h
        case h_2 ridVal hrid =>
          split at h
          case isTrue hridu =>
            -- no-rowId branch: whole-payload comparison
            split at h
            case h_1 => simp at h
            case h_2 prevDsrc hprevd =>
              split at h
              case isTrue hdiff =>
                rw [finishDraw_true] at h
                simp only [Except.ok.injEq, Prod.mk.injEq] at h
                obtain ⟨hst, hops⟩ := h
                subst hst
                subst hops
                refine ⟨rfl, rfl,
                  by simp [phasedOK, phaseApplied, nondecreasing, List.filterMap_cons], ?_⟩
                intro hc
                simp [List.countP_cons, List.countP_append, Action.isDraw] at hc
              case isFalse hdiff =>
                rw [finishDraw_false] at h
                simp only [Except.ok.injEq, Prod.mk.injEq] at h
                obtain ⟨hst, hops⟩ := h
                subst hst
                subst hops
                exact ⟨rfl, rfl, rfl, fun _ => ⟨rfl, fun _ => by simp⟩⟩
          case isFalse hridu =>
            -- rowId branch: row-level diff
            split at h
            case h_1 => simp at h
            case h_2 prevDsrc hprevd =>
              split at h
              case h_1 => simp at h
              case h_2 idxPrev hidxp =>
                split at h
                case h_1 => simp at h
                case h_2 idxCur hidxc =>
                  split at h
                  case h_1 hnone =>
                    rw [finishDraw_false] at h
                    simp only [Except.ok.injEq, Prod.mk.injEq] at h
                    obtain ⟨hst, hops⟩ := h
                    subst hst
                    subst hops
                    exact ⟨rfl, rfl, rfl, fun _ => ⟨rfl, fun _ => by simp⟩⟩
                  case h_2 u hsome =>
                    rw [finishDraw_true] at h
                    simp only [Except.ok.injEq, Prod.mk.injEq] at h
                    obtain ⟨hst, hops⟩ := h
                    subst hst
                    subst hops
                    refine ⟨rfl, rfl, ?_, ?_⟩
                    · unfold phasedOK
                      rw [List.append_assoc, List.append_assoc]
                      rw [List.filterMap_append, filterMap_phase_updateRows]
                      refine nondecreasing_zeros_append _ _ ?_
                      by_cases h1 : u.del.length ≠ 0 <;>
                        by_cases h2 : u.create.length ≠ 0 <;>
                          simp [h1, h2, List.filterMap_cons, List.filterMap_append,
                            phaseApplied, nondecreasing]
                    · intro hc
                      exfalso
                      rw [List.append_assoc, List.append_assoc] at hc
                      rw [List.countP_append, countP_updateRows_eq_zero Action.isDraw
                        (fun _ _ => rfl)] at hc
                      rw [List.countP_append, List.countP_append] at hc
                      simp [List.countP_cons, Action.isDraw] at hc

/-! # Claim C2 -/

/-- C2 (counterexample): on a tick whose ChangeSet holds one update, one
deletion and one creation, the code's trace applies the update *before*
the deletion (source 749-763: updated rows first, then deleted rows,
then created rows), so the claimed order deletions → updates → creations
does not hold. -/
theorem C2_counterexample :
    (_processNewJson (mkState envPrev) envCur).map (·.2) = .ok c2Ops ∧
    phasedOK phaseClaimed c2Ops = false :=
  ⟨rfl, rfl⟩

/-- C2 (amended): when a poll tick's reconciliation produces a
ChangeSet, the table collaborator receives all updates first (replace
row data by key), then all deletions (remove rows by key), then all
creations (append new rows), and only then the redraw. -/
theorem C2_amended (st : DtSettings) (json : JVal) (st2 : DtSettings)
    (ops : List Action) (h : _processNewJson st json = .ok (st2, ops)) :
    phasedOK phaseApplied ops = true :=
  (processNewJson_spec st json st2 ops h).2.2.1

/-- C2 (witness): the amended order on the concrete changed tick. -/
theorem C2_amended_witness :
    _processNewJson (mkState envPrev) envCur =
      .ok ({ mkState envPrev with
        json := envCur
        lastUpdates := some c2Updates
        totalUpdates := 1 }, c2Ops) ∧
    phasedOK phaseApplied c2Ops = true :=
  ⟨rfl, C2_amended (mkState envPrev) envCur _ c2Ops rfl⟩

/-! # Claim C3 -/

/-- Tail of the success pipeline: given the `_processNewJson` step and
the bookkeeping record update, the pipeline's state has `previousJson`
replaced by the raw response and the scheduling fields untouched, and a
drawless trace touches no rows and fires `noUpdate` (when a snapshot
existed).  `extra` abstracts the log/`xhr`-event prefix of the trace. -/
theorem fetchPipelineTail_spec (stMod : DtSettings) (json : JVal) (ts : String)
    (extra : List Action) (dcb acb : JsArg) (st3 : DtSettings) (ops : List Action)
    (st2 : DtSettings) (pops : List Action)
    (hexD : extra.countP Action.isDraw = 0)
    (hexT : extra.countP Action.isTableOp = 0)
    (hp : _processNewJson stMod json = .ok (st2, pops))
    (hst : ({ st2 with
      previousJson := json
      lastResult := JVal.str ts
      totalIterations := st2.totalIterations + 1 } : DtSettings) = st3)
    (hops : extra ++ pops ++ userCbActs dcb ++ userCbActs acb = ops) :
    st3.previousJson = json ∧ st3.interval = stMod.interval ∧
    st3.initInterval = stMod.initInterval ∧
    (stMod.previousJson.isUndef = false → ops.countP Action.isDraw = 0 →
      ops.countP Action.isTableOp = 0 ∧ Action.fireEvent "noUpdate" ∈ ops) := by
  subst hst
  subst hops
  obtain ⟨hi, hii, -, himp⟩ := processNewJson_spec stMod json st2 pops hp
  refine ⟨rfl, hi, hii, ?_⟩
  intro hprev hdraw
  have hcb1D : (userCbActs dcb).countP Action.isDraw = 0 := by
    cases dcb <;> simp [userCbActs, List.countP_cons, Action.isDraw]
  have hcb2D : (userCbActs acb).countP Action.isDraw = 0 := by
    cases acb <;> simp [userCbActs, List.countP_cons, Action.isDraw]
  rw [List.countP_append, List.countP_append, List.countP_append,
    hexD, hcb1D, hcb2D] at hdraw
  have hpopsdraw : pops.countP Action.isDraw = 0 := by omega
  obtain ⟨htab, hmem⟩ := himp hpopsdraw
  constructor
  · have hcb1T : (userCbActs dcb).countP Action.isTableOp = 0 := by
      cases dcb <;> simp [userCbActs, List.countP_cons, Action.isTableOp]
    have hcb2T : (userCbActs acb).countP Action.isTableOp = 0 := by
      cases acb <;> simp [userCbActs, List.countP_cons, Action.isTableOp]
    rw [List.countP_append, List.countP_append, List.countP_append,
      hexT, hcb1T, hcb2T, htab]
  · exact List.mem_append.mpr (Or.inl (List.mem_append.mpr (Or.inl
      (List.mem_append.mpr (Or.inr (hmem hprev))))))

/-- Structure of every successful-fetch pipeline run (`success` option
handler, `.done`, `.always`, source 480-488, 549-575, 846-858): the raw
response always replaces `previousJson`; scheduling fields are
untouched; and when a snapshot existed and nothing was redrawn, no
table-row action occurs and the `noUpdate` event fires. -/
theorem fetchSucceedHandler_spec (st : DtSettings) (json : JVal) (ts : String)
    (st3 : DtSettings) (ops : List Action)
    (h : fetchSucceedHandler st json ts = .ok (st3, ops)) :
    st3.previousJson = json ∧ st3.interval = st.interval ∧
    st3.initInterval = st.initInterval ∧
    (st.previousJson.isUndef = false → ops.countP Action.isDraw = 0 →
      ops.countP Action.isTableOp = 0 ∧ Action.fireEvent "noUpdate" ∈ ops) := by
  unfold fetchSucceedHandler at h
  simp only [bind, Except.bind, pure, Except.pure] at h
  split at h
  case h_1 => simp at h
  case h_2 e1 he1 =>
    split at h
    case isTrue htr =>
      split at h
      case h_1 => simp at h
      case h_2 p hp =>
        obtain ⟨st2, pops⟩ := p
        simp only [Except.ok.injEq, Prod.mk.injEq] at h
        obtain ⟨hst, hops⟩ := h
        refine fetchPipelineTail_spec
          ({ st with json := json, jqXHRReadyState := some 4 }) json ts _
          st.fetchDoneCb st.fetchAlwaysCb st3 ops st2 pops ?_ ?_ hp hst hops
        · by_cases hb : e1.jsTruthy <;> by_cases hc : st.dtCallbacks <;>
            simp [hb, hc, List.countP_append, List.countP_cons, Action.isDraw]
        · by_cases hb : e1.jsTruthy <;> by_cases hc : st.dtCallbacks <;>
            simp [hb, hc, List.countP_append, List.countP_cons, Action.isTableOp]
    case isFalse htr =>
      split at h
      case h_1 => simp at h
      case h_2 errv herrv =>
        split at h
        case h_1 => simp at h
        case h_2 p hp =>
          obtain ⟨st2, pops⟩ := p
          simp only [Except.ok.injEq, Prod.mk.injEq] at h
          obtain ⟨hst, hops⟩ := h
          refine fetchPipelineTail_spec
            ({ st with json := json, jqXHRReadyState := some 4 }) json ts _
            st.fetchDoneCb st.fetchAlwaysCb st3 ops st2 pops ?_ ?_ hp hst hops
          · by_cases hb : errv.jsTruthy <;> by_cases hc : st.dtCallbacks <;>
              simp [hb, hc, List.countP_append, List.countP_cons, Action.isDraw]
          · by_cases hb : errv.jsTruthy <;> by_cases hc : st.dtCallbacks <;>
              simp [hb, hc, List.countP_append, List.countP_cons, Action.isTableOp]

/-- C3 (counterexample): a successful fetch of `envTs2` over the
snapshot `envTs1` (same rows, an extra envelope field differs)
reconciles to "no changes" — the trace fires `noUpdate` and touches no
rows — yet the stored snapshot `previousJson` ends up replaced by the
new raw response (the `.done` handler at source 549-553 runs on *every*
success), although `envTs2 ≠ envTs1`. -/
theorem C3_counterexample :
    fetchSucceedHandler (mkState envTs1) envTs2 "success" =
      .ok (c3StateAfter, c3Ops) ∧
    c3StateAfter.previousJson = envTs2 ∧
    envTs2 ≠ envTs1 :=
  ⟨rfl, rfl, by simp [envTs1, envTs2]⟩

/-- C3 (amended): on a successful fetch over an existing snapshot, if
nothing is redrawn then the no-update event fires and no table-row
action occurs — but the stored snapshot is replaced by the raw response
after *every* successful fetch, not only after reconciliations that
produced changes. -/
theorem C3_amended (st : DtSettings) (json : JVal) (ts : String)
    (st3 : DtSettings) (ops : List Action)
    (hprev : st.previousJson.isUndef = false)
    (h : fetchSucceedHandler st json ts = .ok (st3, ops)) :
    st3.previousJson = json ∧
    (ops.countP Action.isDraw = 0 →
      ops.countP Action.isTableOp = 0 ∧ Action.fireEvent "noUpdate" ∈ ops) := by
  obtain ⟨h1, -, -, h4⟩ := fetchSucceedHandler_spec st json ts st3 ops h
  exact ⟨h1, h4 hprev⟩

/-- C3 (witness): the amended statement on the concrete no-change
fetch. -/
theorem C3_amended_witness :
    (mkState envTs1).previousJson.isUndef = false ∧
    c3StateAfter.previousJson = envTs2 ∧
    c3Ops.countP Action.isTableOp = 0 ∧ Action.fireEvent "noUpdate" ∈ c3Ops := by
  have h := C3_amended (mkState envTs1) envTs2 "success" c3StateAfter c3Ops rfl rfl
  exact ⟨rfl, h.1, (h.2 rfl).1, (h.2 rfl).2⟩

/-! # Claim C4 -/

/-- C4 (code bug): on a paused session with no fetch outstanding
(`jqXHR` settled, readyState 4), `liveAjax.reload(true)` — documented in
the source (lines 181, 1022-1023) as "Force update, even if updates are
paused" — issues *no* fetch: the API at source 1026-1030 forwards its
arguments to `initReload`, whose first parameter is `pollingFn`, so the
force flag lands in `pollingFn` and `overridePause` receives the
(undefined) done-callback; the gate `paused === false || overridePause
=== true` fails and the tick is skipped with reason `paused`. -/
theorem C4_forced_reload_skipped :
    reloadApi { mkState envPrev with paused := true }
      (.jsBool true) .undef .undef .undef =
    .ok ({ mkState envPrev with paused := true },
      [Action.fireEventArg "xhrSkipped" "paused"]) := rfl

/-! # Claim C5 -/

/-- C5 (code bug): on the first tick of a session, the action trace is
`issueFetch` then `armTimer` — the timer for the next tick is armed
immediately after the XHR is *sent*, and the final state has both the
timer armed and the fetch still outstanding.  The polling continuation
runs synchronously at the end of `initReload` (source 871-873), not in
the `xhr.always()` callback as the comment at source 605-606 states, so
the rescheduling step runs while the current tick's fetch is still in
flight. -/
theorem C5_rearm_during_fetch :
    (runEvents { mkState envPrev with timerArmed := true } [Ev.timerFire]).map
      (fun r => (r.1.timerArmed, fetchInFlight r.1, r.2)) =
    .ok (true, true, [Action.issueFetch, Action.armTimer 4000]) := rfl

/-! # Claim C6 -/

/-- C6 (code bug): after the first tick's fetch completes with status
`error` (a member of the default `abortOn`), the already-armed timer
still fires and *issues one more fetch* (two `issueFetch` in the second
trace); and after that second fetch completes with `success` — not in
`abortOn` — no further tick is ever scheduled (`timerArmed` is false and
only the first tick's single `armTimer` ever occurred).  The abort check
reads `lastResult` synchronously at fetch-issue time (source 606-612),
one completion behind, instead of in the `xhr.always()` callback. -/
theorem runEvents_cons_ok (st st1 : DtSettings) (e : Ev) (es : List Ev)
    (a1 : List Action) (h : step st e = .ok (st1, a1)) :
    runEvents st (e :: es) =
      (runEvents st1 es).map (fun r => (r.1, a1 ++ r.2)) := by
  simp only [runEvents, h, bind, Except.bind, pure, Except.pure]
  cases hr : runEvents st1 es with
  | error err => simp [hr, Except.map]
  | ok p => obtain ⟨x, y⟩ := p; simp [hr, Except.map]

theorem C6_abort_one_tick_late :
    (runEvents c6S0 [Ev.timerFire, Ev.fetchFail "error" 4]).map
      (fun r => (r.2.countP Action.isIssueFetch, r.1.lastResult, r.1.timerArmed)) =
      .ok (1, JVal.str "error", true) ∧
    (runEvents c6S0
        [Ev.timerFire, Ev.fetchFail "error" 4, Ev.timerFire,
         Ev.fetchSucceed envPrev "success"]).map
      (fun r => (r.2.countP Action.isIssueFetch, r.1.lastResult, r.1.timerArmed,
        r.2.countP Action.isArmTimer)) =
      .ok (2, JVal.str "success", false, 1) := by
  have h1 : step c6S0 Ev.timerFire =
      .ok (c6S1, [Action.issueFetch, Action.armTimer 4000]) := rfl
  have h2 : step c6S1 (Ev.fetchFail "error" 4) =
      .ok (c6S2, [Action.logError "Ajax error", Action.fireEvent "xhrErrError",
        Action.fireEvent "xhrErr"]) := rfl
  have h3 : step c6S2 Ev.timerFire =
      .ok (c6S3, [Action.issueFetch, Action.logError abortLogMsg]) := rfl
  have h4 : step c6S3 (Ev.fetchSucceed envPrev "success") =
      .ok (c6S4, [Action.fireEvent "noUpdate", Action.callbackNoUpdate]) := rfl
  constructor
  · rw [runEvents_cons_ok _ _ _ _ _ h1, runEvents_cons_ok _ _ _ _ _ h2]
    rfl
  · rw [runEvents_cons_ok _ _ _ _ _ h1, runEvents_cons_ok _ _ _ _ _ h2,
      runEvents_cons_ok _ _ _ _ _ h3, runEvents_cons_ok _ _ _ _ _ h4]
    rfl

/-! # Claim C9 -/

/-- C9 (code bug): `setInterval(2000, true)` on a session whose stored
interval is 5000 does cancel the pending timer and arm a fresh one
immediately — but the fresh timer's delay is the *old* interval 5000,
not the new clamped 2000, because `_initUpdates` runs before
`liveAjax.interval` is assigned (source 1050-1056); the source's own
doc (1038-1039) says the new interval is implemented immediately. -/
theorem C9_immediate_uses_old_interval :
    setIntervalApi { mkState envPrev with interval := 5000 } (some 2000) true =
      ({ mkState envPrev with
          interval := 2000
          timerArmed := true
          timerDelay := 5000 },
       [Action.fireEvent "abortXhr", Action.clearTimer,
        Action.fireEvent "clearTimeout", Action.armTimer 5000,
        Action.fireEvent "init", Action.fireEvent "setInterval"]) := rfl

/-! # Claim C10 -/

/-- C10: for every rowKey and every input whose `length` property reads
as exactly the number `0`, `_fnKeyStructData` returns the empty index
and raises no error — the `data.length === 0` check (source 228) runs
before the array-shape, record-shape and key-presence validations, which
are therefore all skipped. -/
theorem C10_length_zero_empty_index (key : String) (data : JVal)
    (h : data.getField "length" = .ok (.num 0)) :
    _fnKeyStructData key data = .ok [] := by
  unfold _fnKeyStructData
  simp only [bind, Except.bind, pure, Except.pure]
  rw [h]
  simp [JVal.strictEqZero]

/-- C10 (witness): the empty Collection, and a non-array object whose
`length` field is 0 (which would fail the array check were it
reached). -/
theorem C10_length_zero_witness :
    ((JVal.arr []).getField "length" = .ok (.num 0) ∧
      _fnKeyStructData "id" (.arr []) = .ok []) ∧
    ((JVal.obj [("length", .num 0)]).getField "length" = .ok (.num 0) ∧
      _fnKeyStructData "id" (.obj [("length", .num 0)]) = .ok []) :=
  ⟨⟨rfl, C10_length_zero_empty_index "id" _ rfl⟩,
   ⟨rfl, C10_length_zero_empty_index "id" _ rfl⟩⟩

/-! # Claim C7 -/

/-- C7 (counterexample): when the row lacking the rowKey is the *first*
row, the error raised is the early check's message (source 239-240),
which names the key but not the offending row's position — it differs
from the positional message the loop raises for later rows. -/
theorem C7_counterexample :
    _fnKeyStructData "id" (.arr [.obj [("a", .num 1)]]) =
      .error (missingKeyMsg "id") ∧
    missingKeyMsg "id" ≠ missingKeyAtMsg "id" 0 :=
  ⟨rfl, by decide⟩

/-- The `$.each` loop of `_fnKeyStructData` on all-object rows: if the
first row lacking the key (relative to the loop's remaining rows) sits
at offset `i`, the loop throws the positional message at absolute
position `idx + i`. -/
theorem keyStructLoop_missing : ∀ (key : String) (rows : List JVal)
    (idx : Nat) (acc : KeyedIndex) (i : Nat) (hi : i < rows.length),
    (∀ v ∈ rows, v.isObj = true) →
    (∀ j (hj : j < rows.length), j < i → rowHasKeyB key (rows.get ⟨j, hj⟩) = true) →
    rowHasKeyB key (rows.get ⟨i, hi⟩) = false →
    keyStructLoop key rows idx acc = .error (missingKeyAtMsg key (idx + i)) := by
  intro key rows
  induction rows with
  | nil => intro idx acc i hi; simp at hi
  | cons v rest ih =>
      intro idx acc i hi hobj hmin hlack
      have hvo : v.isObj = true := hobj v (List.mem_cons_self _ _)
      cases v with
      | obj fs =>
          have hred : keyStructLoop key (JVal.obj fs :: rest) idx acc =
              (if ((JVal.findField key fs).getD .undef).isUndef = true then
                Except.error (missingKeyAtMsg key idx)
              else
                keyStructLoop key rest (idx + 1)
                  (acc.insertKV
                    (JVal.jsToString ((JVal.findField key fs).getD .undef))
                    (JVal.obj fs))) := rfl
          cases i with
          | zero =>
              have hl : rowHasKeyB key (JVal.obj fs) = false := hlack
              have hu : ((JVal.findField key fs).getD .undef).isUndef = true := by
                simpa [rowHasKeyB] using hl
              rw [hred, if_pos hu, Nat.add_zero]
          | succ j =>
              have h0 : rowHasKeyB key (JVal.obj fs) = true :=
                hmin 0 (by simp) (Nat.succ_pos j)
              have hu : ((JVal.findField key fs).getD .undef).isUndef = false := by
                simpa [rowHasKeyB] using h0
              rw [hred, if_neg (by simp [hu])]
              have hj2 : j < rest.length := by
                simp only [List.length_cons] at hi
                omega
              rw [show idx + (j + 1) = (idx + 1) + j by omega]
              refine ih (idx + 1) _ j hj2 ?_ ?_ ?_
              · intro w hw
                exact hobj w (List.mem_cons_of_mem _ hw)
              · intro j2 hj3 hlt
                exact hmin (j2 + 1)
                  (by simp only [List.length_cons]; omega)
                  (Nat.succ_lt_succ hlt)
              · exact hlack
      | null => simp [JVal.isObj] at hvo
      | undef => simp [JVal.isObj] at hvo
      | bool b => simp [JVal.isObj] at hvo
      | num n => simp [JVal.isObj] at hvo
      | str s => simp [JVal.isObj] at hvo
      | arr xs => simp [JVal.isObj] at hvo

/-- C7 (amended): indexing a collection of record rows by a rowKey fails
synchronously with a structural error whenever any row lacks the rowKey
field — the error is always raised, never recovered by dropping rows —
and the error identifies the first offending row's position *except*
when that row is the first one, where the early check (source 239-240)
throws the position-less message. -/
theorem C7_amended (key : String) (rows : List JVal) (i : Nat)
    (hi : i < rows.length)
    (hobj : ∀ v ∈ rows, v.isObj = true)
    (hmin : ∀ j (hj : j < rows.length), j < i →
      rowHasKeyB key (rows.get ⟨j, hj⟩) = true)
    (hlack : rowHasKeyB key (rows.get ⟨i, hi⟩) = false) :
    _fnKeyStructData key (.arr rows) =
      .error (if i = 0 then missingKeyMsg key else missingKeyAtMsg key i) := by
  cases rows with
  | nil => simp at hi
  | cons v rest =>
      have hvo : v.isObj = true := hobj v (List.mem_cons_self _ _)
      cases v with
      | obj fs =>
          have hred : _fnKeyStructData key (.arr (JVal.obj fs :: rest)) =
              (if (JVal.num ((JVal.obj fs :: rest).length : Int)).strictEqZero = true
                then .ok []
              else if ((JVal.findField key fs).getD .undef).isUndef = true then
                .error (missingKeyMsg key)
              else
                keyStructLoop key (JVal.obj fs :: rest) 0 []) := rfl
          have hlen : (JVal.num
              ((JVal.obj fs :: rest).length : Int)).strictEqZero = false := by
            rw [show (JVal.num ((JVal.obj fs :: rest).length : Int)).strictEqZero
              = (((JVal.obj fs :: rest).length : Int) == 0) from rfl,
              beq_eq_false_iff_ne]
            simp only [List.length_cons]
            omega
          rw [hred, if_neg (by rw [hlen]; simp)]
          cases i with
          | zero =>
              have hl : rowHasKeyB key (JVal.obj fs) = false := hlack
              have hu : ((JVal.findField key fs).getD .undef).isUndef = true := by
                simpa [rowHasKeyB] using hl
              rw [if_pos hu]
              simp
          | succ j =>
              have h0 : rowHasKeyB key (JVal.obj fs) = true :=
                hmin 0 (by simp) (Nat.succ_pos j)
              have hu : ((JVal.findField key fs).getD .undef).isUndef = false := by
                simpa [rowHasKeyB] using h0
              rw [if_neg (by simp [hu])]
              have := keyStructLoop_missing key (JVal.obj fs :: rest) 0 [] (j + 1)
                hi hobj hmin hlack
              rw [this]
              simp
      | null => simp [JVal.isObj] at hvo
      | undef => simp [JVal.isObj] at hvo
      | bool b => simp [JVal.isObj] at hvo
      | num n => simp [JVal.isObj] at hvo
      | str s => simp [JVal.isObj] at hvo
      | arr xs => simp [JVal.isObj] at hvo

/-- C7 (witness): the amended theorem on a two-row collection whose
second row lacks `id` — the raised error names position 1. -/
theorem C7_amended_witness :
    rowHasKeyB "id" (JVal.obj [("a", JVal.num 1)]) = false ∧
    _fnKeyStructData "id" (.arr [rowA, .obj [("a", .num 1)]]) =
      .error (missingKeyAtMsg "id" 1) := by
  constructor
  · rfl
  · have h := C7_amended "id" [rowA, .obj [("a", .num 1)]] 1 (by simp)
      (by
        intro v hv
        rcases List.mem_cons.mp hv with h1 | h1
        · subst h1; rfl
        · rcases List.mem_cons.mp h1 with h2 | h2
          · subst h2; rfl
          · exact absurd h2 (List.not_mem_nil v))
      (by
        intro j hj hlt
        have hj0 : j = 0 := by omega
        subst hj0
        rfl)
      rfl
    simpa using h

/-! # Claim C8 -/

theorem resolveInterval_ge (opt : Option Int) :
    _minInterval ≤ resolveInterval opt := by
  show _minInterval ≤
    (if _minInterval > opt.getD 4000 then _minInterval else opt.getD 4000)
  split
  · exact le_refl _
  · omega

theorem _initUpdates_fields (st : DtSettings) :
    (_initUpdates st).1.interval = st.interval ∧
    (_initUpdates st).1.initInterval = st.initInterval := by
  unfold _initUpdates
  split <;> exact ⟨rfl, rfl⟩

theorem _clearTimeout_fields (st : DtSettings) :
    (_clearTimeout st).1.interval = st.interval ∧
    (_clearTimeout st).1.initInterval = st.initInterval := ⟨rfl, rfl⟩

theorem fetchFailHandler_fields (st : DtSettings) (ts : String) (rs : Nat) :
    (fetchFailHandler st ts rs).1.interval = st.interval ∧
    (fetchFailHandler st ts rs).1.initInterval = st.initInterval := ⟨rfl, rfl⟩

theorem _abortXhr_fields (st : DtSettings) :
    (_abortXhr st).1.interval = st.interval ∧
    (_abortXhr st).1.initInterval = st.initInterval := by
  unfold _abortXhr
  split
  · exact ⟨rfl, rfl⟩
  · split
    · exact ⟨rfl, rfl⟩
    · exact ⟨rfl, rfl⟩

theorem pollerStep_fields (st : DtSettings) :
    (pollerStep st).1.interval = st.interval ∧
    (pollerStep st).1.initInterval = st.initInterval := by
  unfold pollerStep
  constructor <;> split <;> rfl

theorem initReload_fields (st : DtSettings) (a b c d e : JsArg)
    (p : DtSettings × List Action) (h : initReload st a b c d e = .ok p) :
    p.1.interval = st.interval ∧ p.1.initInterval = st.initInterval := by
  unfold initReload at h
  simp only [bind, Except.bind, pure, Except.pure] at h
  split at h
  case isTrue hg =>
    cases a with
    | pollerFn =>
        simp only [Except.ok.injEq] at h
        subst h
        refine ⟨?_, ?_⟩
        · rw [(pollerStep_fields _).1]
        · rw [(pollerStep_fields _).2]
    | userFn t =>
        simp only [Except.ok.injEq] at h
        subst h
        exact ⟨rfl, rfl⟩
    | undef =>
        simp only [Except.ok.injEq] at h
        subst h
        exact ⟨rfl, rfl⟩
    | jsBool bb =>
        simp only [Except.ok.injEq] at h
        subst h
        exact ⟨rfl, rfl⟩
  case isFalse hg =>
    split at h
    case h_1 => simp at h
    case h_2 rs hrs =>
      split at h
      case isTrue => simp at h
      case isFalse =>
        cases a with
        | pollerFn =>
            simp only [Except.ok.injEq] at h
            subst h
            refine ⟨?_, ?_⟩
            · rw [(pollerStep_fields _).1]
            · rw [(pollerStep_fields _).2]
        | userFn t =>
            simp only [Except.ok.injEq] at h
            subst h
            exact ⟨rfl, rfl⟩
        | undef =>
            simp only [Except.ok.injEq] at h
            subst h
            exact ⟨rfl, rfl⟩
        | jsBool bb =>
            simp only [Except.ok.injEq] at h
            subst h
            exact ⟨rfl, rfl⟩

theorem step_fields (st : DtSettings) (e : Ev) (p : DtSettings × List Action)
    (h : step st e = .ok p) :
    p.1.interval = st.interval ∧ p.1.initInterval = st.initInterval := by
  cases e with
  | timerFire =>
      simp only [step] at h
      by_cases ht : st.timerArmed = true
      · rw [if_pos ht] at h
        have hfields := initReload_fields _ _ _ _ _ _ _ h
        exact hfields
      · rw [if_neg ht] at h
        simp only [Except.ok.injEq] at h
        subst h
        exact ⟨rfl, rfl⟩
  | fetchSucceed json ts =>
      simp only [step] at h
      by_cases hf : fetchInFlight st = true
      · rw [if_pos hf] at h
        obtain ⟨s3, ops⟩ := p
        have hspec := fetchSucceedHandler_spec st json ts s3 ops h
        exact ⟨hspec.2.1, hspec.2.2.1⟩
      · rw [if_neg hf] at h
        simp only [Except.ok.injEq] at h
        subst h
        exact ⟨rfl, rfl⟩
  | fetchFail ts rs =>
      simp only [step] at h
      by_cases hf : fetchInFlight st = true
      · rw [if_pos hf] at h
        simp only [Except.ok.injEq] at h
        subst h
        exact ⟨rfl, rfl⟩
      · rw [if_neg hf] at h
        simp only [Except.ok.injEq] at h
        subst h
        exact ⟨rfl, rfl⟩

theorem setIntervalApi_inv (st : DtSettings) (int : Option Int) (imm : Bool)
    (h : intervalInv st) : intervalInv (setIntervalApi st int imm).1 := by
  have hclamp : forall v : Int,
      _minInterval <= (if _minInterval > v then _minInterval else v) := by
    intro v
    split
    · exact le_refl _
    · omega
  cases imm with
  | false =>
      refine ⟨?_, ?_⟩
      · show _minInterval ≤
          (if _minInterval > (match int with
            | none => st.initInterval
            | some n => if n = 0 then st.initInterval else n)
           then _minInterval
           else (match int with
            | none => st.initInterval
            | some n => if n = 0 then st.initInterval else n))
        exact hclamp _
      · exact h.2
  | true =>
      refine ⟨?_, ?_⟩
      · show _minInterval ≤
          (if _minInterval > (match int with
            | none => st.initInterval
            | some n => if n = 0 then st.initInterval else n)
           then _minInterval
           else (match int with
            | none => st.initInterval
            | some n => if n = 0 then st.initInterval else n))
        exact hclamp _
      · show _minInterval ≤
          (_initUpdates (_clearTimeout (_abortXhr st).1).1).1.initInterval
        rw [(_initUpdates_fields _).2, (_clearTimeout_fields _).2,
          (_abortXhr_fields _).2]
        exact h.2

/-- C8: the 1500 ms floor invariant holds at every point of a session's
lifetime: it is established at initialization for every configured
interval option (including absent), and it is preserved by every
event-loop step (tick, fetch success, fetch failure) and by every API
method — in particular `setInterval`, for every new value and for the
null reset to the initial value. -/
theorem C8_interval_floor :
    (∀ o : InitOptions, intervalInv (initSession o).1) ∧
    (∀ (st : DtSettings) (int : Option Int) (imm : Bool), intervalInv st →
      intervalInv (setIntervalApi st int imm).1) ∧
    (∀ (st : DtSettings) (e : Ev) (p : DtSettings × List Action),
      intervalInv st → step st e = .ok p → intervalInv p.1) ∧
    (∀ (st : DtSettings) (a b c d : JsArg) (p : DtSettings × List Action),
      intervalInv st → reloadApi st a b c d = .ok p → intervalInv p.1) ∧
    (∀ st : DtSettings, intervalInv st →
      intervalInv (pauseApi st).1 ∧ intervalInv (resumeApi st).1 ∧
      intervalInv (togglePauseApi st).1 ∧ intervalInv (initiateApi st).1 ∧
      intervalInv (abortXhrApi st).1 ∧
      ∀ b : Bool, intervalInv (clearTimeoutApi st b).1) := by
  refine ⟨?_, setIntervalApi_inv, ?_, ?_, ?_⟩
  · intro o
    unfold initSession
    constructor
    · rw [(_initUpdates_fields _).1]
      exact resolveInterval_ge o.interval
    · rw [(_initUpdates_fields _).2]
      exact resolveInterval_ge o.interval
  · intro st e p h hs
    obtain ⟨h1, h2⟩ := step_fields st e p hs
    exact ⟨h1 ▸ h.1, h2 ▸ h.2⟩
  · intro st a b c d p h hr
    obtain ⟨h1, h2⟩ := initReload_fields st a b c d .undef p hr
    exact ⟨h1 ▸ h.1, h2 ▸ h.2⟩
  · intro st h
    refine ⟨h, h, h, ?_, ?_, ?_⟩
    · obtain ⟨h1, h2⟩ := _initUpdates_fields st
      exact ⟨h1 ▸ h.1, h2 ▸ h.2⟩
    · obtain ⟨h1, h2⟩ := _abortXhr_fields st
      exact ⟨h1 ▸ h.1, h2 ▸ h.2⟩
    · intro b
      unfold clearTimeoutApi
      constructor
      · rw [(_clearTimeout_fields _).1]
        cases b with
        | true =>
            show _minInterval ≤ (_abortXhr st).1.interval
            rw [(_abortXhr_fields _).1]
            exact h.1
        | false => exact h.1
      · rw [(_clearTimeout_fields _).2]
        cases b with
        | true =>
            show _minInterval ≤ (_abortXhr st).1.initInterval
            rw [(_abortXhr_fields _).2]
            exact h.2
        | false => exact h.2

/-- C8 (witness): the floor holds after a default-options session is
created and after concrete uses of `setInterval`, a tick, a reload and
the pause API. -/
theorem C8_interval_floor_witness :
    intervalInv (initSession
      { interval := some 200, dtCallbacks := false, resetPaging := false,
        abortOn := none, rowId := "id", dataSrc := none,
        initialJson := envPrev, initialReadyState := some 4 }).1 ∧
    intervalInv (setIntervalApi (mkState envPrev) (some 100) false).1 ∧
    intervalInv (pauseApi (mkState envPrev)).1 :=
  ⟨C8_interval_floor.1 _,
   C8_interval_floor.2.1 (mkState envPrev) (some 100) false ⟨by decide, by decide⟩,
   (C8_interval_floor.2.2.2.2 (mkState envPrev) ⟨by decide, by decide⟩).1⟩

end LiveAjax
